import Mathlib

/-!
Shallow embedding of the HubSpot list/campaign orchestration pipeline of
`src/routes/hubspotRoute.js`, together with theorems settling the frozen
claims about it.

Remote HTTP interaction is modelled by explicit oracles (environments):
the membership endpoint is a function from request index to page response,
membership-add attempts are a boolean oracle per chunk and attempt, list
creation is an `Except`-valued oracle per campaign index, and wall-clock
time is a simulated millisecond counter advanced by per-campaign durations
supplied by the environment.  `setTimeout` sleeps are recorded as traces.
JavaScript `Math.round` on the non-negative ratio `(a / b) * 100` is
modelled exactly over rationals as `(200 * a + b) / (2 * b)` in `Nat`.
-/

namespace HubspotRoute

/-- `MAX_RETRIES` from the source (default 3). -/
def MAX_RETRIES : Nat := 3

/-- `RETRIEVAL_BATCH_SIZE` from the source (default 1000). -/
def RETRIEVAL_BATCH_SIZE : Nat := 1000

/-- `Math.round(num / den)` for natural `num`, `den` with `den > 0`:
round half away from zero (here: half up), i.e. `floor(num/den + 1/2)`. -/
def mathRound (num den : Nat) : Nat := (2 * num + den) / (2 * den)

/-- `Math.max(0, d - elapsed)` over JS numbers, i.e. truncated subtraction. -/
def jsDelay (d elapsed : Nat) : Nat := (max 0 ((d : Int) - (elapsed : Int))).toNat

/-- The default `sizes` argument of `progressiveChunks`. -/
def defaultSizes : List Nat := [300, 100, 50, 1]

/-- The inner `while (index < arr.length)` loop of `progressiveChunks` for one
`size`: starting at `index`, repeatedly pushes `arr.slice(index, index + size)`
and advances `index` by `size`; it breaks when the slice is empty (which can
only happen when `size = 0`).  Returns the chunks pushed and the final index.
`fuel` bounds the iteration count; `arr.length` iterations always suffice
because a non-break step has `size ≥ 1`. -/
def progressiveInner (arr : List Nat) (size : Nat) : Nat → Nat → List (List Nat) × Nat
  | index, 0 => ([], index)
  | index, fuel + 1 =>
    if index < arr.length then
      let chunk := ((arr.drop index).take size)
      if chunk.length = 0 then ([], index)
      else
        let r := progressiveInner arr size (index + size) fuel
        (chunk :: r.1, r.2)
    else ([], index)

/-- `progressiveChunks(arr, sizes = [300, 100, 50, 1])` from the source:
iterates over `sizes`, running the inner while loop for each, threading the
shared `index`. -/
def progressiveChunks (arr : List Nat) (sizes : List Nat) : List (List Nat) :=
  (sizes.foldl
    (fun (acc : List (List Nat) × Nat) size =>
      let r := progressiveInner arr size acc.2 arr.length
      (acc.1 ++ r.1, r.2))
    ([], 0)).1

/-- The per-chunk `while (retries < MAX_RETRIES && !success)` retry loop of
`addContactsToList`.  `ok attempt` tells whether the PUT call of the given
attempt number succeeds.  Returns (number of PUT calls issued, success). -/
def chunkRetryLoop (ok : Nat → Bool) : Nat → Nat → Nat × Bool
  | _, 0 => (0, false)
  | attempt, fuel + 1 =>
    if ok attempt then (1, true)
    else
      let r := chunkRetryLoop ok (attempt + 1) fuel
      (r.1 + 1, r.2)

/-- The `for (const [index, chunk] of chunks.entries())` loop of
`addContactsToList`: per chunk, run the retry loop; a successful chunk
contributes its length to `successCount`.  Returns
(successCount, total number of membership-add PUT calls issued). -/
def addLoop (attemptOk : Nat → Nat → Bool) : Nat → List (List Nat) → Nat × Nat
  | _, [] => (0, 0)
  | idx, chunk :: rest =>
    let r := chunkRetryLoop (attemptOk idx) 0 MAX_RETRIES
    let t := addLoop attemptOk (idx + 1) rest
    ((if r.2 then chunk.length else 0) + t.1, r.1 + t.2)

/-- `addContactsToList(listId, contacts, skipVerification)` from the source.
`contacts = none` models a missing (`null`/`undefined`) array.
`verifyManual` is the oracle for `verifyListIsManual`; `attemptOk` is the
oracle for PUT-call outcomes (chunk index, attempt number).  Returns
(successCount, number of membership-add calls issued). -/
def addContactsToList (verifyManual : Nat → Bool) (attemptOk : Nat → Nat → Bool)
    (listId : Nat) (contacts : Option (List Nat)) (skipVerification : Bool) : Nat × Nat :=
  match contacts with
  | none => (0, 0)
  | some cs =>
    if cs.length = 0 then (0, 0)
    else if skipVerification = false ∧ verifyManual listId = false then (0, 0)
    else addLoop attemptOk 0 (progressiveChunks cs defaultSizes)

/-- One response of the membership endpoint
`GET /crm/v3/lists/{listId}/memberships`: either a page of record ids with an
optional `paging.next.after` cursor, or an HTTP error with its status
(0 models a network error with no response). -/
inductive PageResp
  | ok (records : List Nat) (next : Option Nat)
  | err (status : Nat)
deriving Repr, DecidableEq

/-- The local variables of `getContactsFromList`, plus a trace of the
exponential-backoff delays (ms) issued before retries. -/
structure FetchState where
  allContacts : List Nat := []
  hasMore : Bool := true
  after : Option Nat := none
  consecutiveErrors : Nat := 0
  totalAttempts : Nat := 0
  isLegacyList : Bool := false
  v3Success : Bool := false
  backoffDelays : List Nat := []
deriving Repr, DecidableEq

/-- The errors `getContactsFromList` can throw: the legacy/incompatible-format
error raised by `getContactsFromLegacyList` (its message names the list id),
and the retrieval-failed error of line 155 (its message names the list id and
the underlying cause, modelled by the HTTP status). -/
inductive FetchError
  | legacyList (listId : Nat)
  | retrievalFailed (listId : Nat) (status : Nat)
deriving Repr, DecidableEq

/-- Outcome of one iteration of the `while` loop of `getContactsFromList`. -/
inductive StepOut
  | next (s : FetchState)
  | exit (s : FetchState)
  | fail (e : FetchError)
deriving Repr, DecidableEq

/-- `n < maxCount` where `maxCount : Option Nat`, `none` = `Infinity`. -/
def ltMax (n : Nat) : Option Nat → Bool
  | none => true
  | some m => n < m

/-- `n >= maxCount` where `none` = `Infinity` (always false there). -/
def geMax (n : Nat) : Option Nat → Bool
  | none => false
  | some m => m ≤ n

/-- `l.slice(0, maxCount)` where `none` = `Infinity` (no truncation). -/
def truncMax (l : List Nat) : Option Nat → List Nat
  | none => l
  | some m => l.take m

/-- One iteration of the `while` loop body of `getContactsFromList`, assuming
the loop condition holds.  `resp i` is the response to the `i`-th request (the
request parameters `limit`/`after` are determined by the state, so they are
absorbed into the oracle).  The 200 ms inter-page sleep has no observable
effect and is not traced. -/
def fetchStep (resp : Nat → PageResp) (listId : Nat) (maxCount : Option Nat)
    (s : FetchState) : StepOut :=
  let ta := s.totalAttempts + 1
  match resp s.totalAttempts with
  | .ok records next =>
    let all := s.allContacts ++ records
    let hasMore := next.isSome && ltMax all.length maxCount
    let s1 : FetchState :=
      { s with allContacts := all, hasMore := hasMore, after := next,
               consecutiveErrors := 0, totalAttempts := ta, v3Success := true }
    if geMax all.length maxCount then
      .exit { s1 with allContacts := truncMax all maxCount }
    else .next s1
  | .err status =>
    if status = 404 ∧ ta = 1 then
      .exit { s with isLegacyList := true, totalAttempts := ta }
    else
      let ce := s.consecutiveErrors + 1
      if 0 < s.allContacts.length ∧ MAX_RETRIES ≤ ce then
        .exit { s with consecutiveErrors := ce, totalAttempts := ta }
      else if s.allContacts.length = 0 ∧ MAX_RETRIES ≤ ce then
        .fail (.retrievalFailed listId status)
      else
        .next { s with consecutiveErrors := ce, totalAttempts := ta,
                       backoffDelays :=
                         s.backoffDelays ++ [min (1000 * 2 ^ (ce - 1)) 10000] }

/-- The `while (hasMore && allContacts.length < maxCount)` loop of
`getContactsFromList`, with `fuel` bounding the iteration count.  Returns
`none` when fuel runs out, otherwise the final state together with the thrown
error, if any. -/
def fetchLoop (resp : Nat → PageResp) (listId : Nat) (maxCount : Option Nat) :
    Nat → FetchState → Option (FetchState × Option FetchError)
  | 0, _ => none
  | fuel + 1, s =>
    if s.hasMore = true ∧ ltMax s.allContacts.length maxCount = true then
      match fetchStep resp listId maxCount s with
      | .next s1 => fetchLoop resp listId maxCount fuel s1
      | .exit s1 => some (s1, none)
      | .fail e => some (s, some e)
    else some (s, none)

/-- `getContactsFromLegacyList(listId, maxCount)` from the source: always
throws the legacy/incompatible-format migration error naming the list id. -/
def getContactsFromLegacyList (listId : Nat) : Except FetchError (List Nat) :=
  .error (.legacyList listId)

/-- The code after the `while` loop of `getContactsFromList`: the
zero-contacts v1 fallback (whose failure is swallowed), the legacy-list
branch (whose error propagates), and the final first-occurrence dedup
`[...new Set(allContacts)]`. -/
def fetchFinish (listId : Nat) (s : FetchState) : Except FetchError (List Nat) :=
  if s.v3Success = true ∧ s.allContacts.length = 0 ∧ s.isLegacyList = false then
    match getContactsFromLegacyList listId with
    | .ok legacy =>
      .ok ((if 0 < legacy.length then legacy else s.allContacts).eraseDups)
    | .error _ => .ok s.allContacts.eraseDups
  else if s.isLegacyList = true then
    match getContactsFromLegacyList listId with
    | .ok legacy => .ok legacy.eraseDups
    | .error e => .error e
  else .ok s.allContacts.eraseDups

/-- `getContactsFromList` starting from an arbitrary loop state: run the loop,
then the post-loop logic.  Returns the result (or thrown error) together with
the final loop state, `none` when fuel runs out. -/
def fetchRun (resp : Nat → PageResp) (listId : Nat) (maxCount : Option Nat)
    (fuel : Nat) (s : FetchState) :
    Option (Except FetchError (List Nat) × FetchState) :=
  match fetchLoop resp listId maxCount fuel s with
  | none => none
  | some (s1, none) => some (fetchFinish listId s1, s1)
  | some (s1, some e) => some (.error e, s1)

/-- `getContactsFromList(listId, maxCount)` from the source, from the initial
state. -/
def getContactsFromList (resp : Nat → PageResp) (listId : Nat)
    (maxCount : Option Nat) (fuel : Nat) :
    Option (Except FetchError (List Nat) × FetchState) :=
  fetchRun resp listId maxCount fuel {}

/-- The fields of a segmentation record that `processSingleCampaign` reads
(string-only fields such as brand/campaign/domain/date only feed the list
name and logging, so they are omitted). -/
structure CampaignConfig where
  count : Nat
  primaryListId : Nat
  secondaryListId : Option Nat := none
  sendContactListId : Option Nat := none
deriving Repr, DecidableEq

/-- The contact-sourcing bookkeeping of `processSingleCampaign`
(lines 375-401 of the source). -/
structure SelData where
  primaryBeforeFilter : Nat
  primaryAfterFilter : Nat
  secondaryBeforeFilter : Nat
  secondaryAfterFilter : Nat
  selected : List Nat
deriving Repr, DecidableEq

/-- `Math.max(count * 3, 500)`: the primary over-fetch head-room. -/
def primaryFetchCount (count : Nat) : Nat := max (count * 3) 500

/-- The primary contacts obtained by `processSingleCampaign`: the result of
`getContactsFromList(primaryListId, max(count*3, 500))`, `[]` when that call
throws (the catch at line 403 keeps the initial empty array).  `fetch` is the
oracle for `getContactsFromList` results (`none` = throw). -/
def fetchedPrimary (fetch : Nat → Nat → Option (List Nat)) (cfg : CampaignConfig) :
    List Nat :=
  (fetch cfg.primaryListId (primaryFetchCount cfg.count)).getD []

/-- The secondary contacts obtained by `processSingleCampaign`: fetched only
when the primary fetch did not throw, the dedup-filtered primary count falls
short of `count`, and a secondary list id is configured; `[]` otherwise
(including when the secondary fetch itself throws). -/
def fetchedSecondary (fetch : Nat → Nat → Option (List Nat)) (cfg : CampaignConfig)
    (used : Finset Nat) : List Nat :=
  match fetch cfg.primaryListId (primaryFetchCount cfg.count) with
  | none => []
  | some primary =>
    let pf := primary.filter (fun v => v ∉ used)
    match cfg.secondaryListId with
    | none => []
    | some sid =>
      if pf.length < cfg.count then
        let secondaryNeeded := cfg.count - pf.length
        (fetch sid (max (secondaryNeeded * 3) 500)).getD []
      else []

/-- Lines 375-412 of `processSingleCampaign`: fetch primary (and, on
shortfall, secondary) contacts, filter each against the run's used-contacts
set, record before/after counts, concatenate primary-then-secondary and
truncate to `count`.  The count fields are the lengths of the corresponding
arrays of the source: `fetchedPrimary` / `fetchedSecondary` are `[]` exactly
when the source leaves the corresponding variable at its initial `[]`
(fetch throw, shortfall not reached, or no secondary id), so
`primaryBeforeFilter = 0` etc. in exactly the same situations. -/
def selectCampaign (fetch : Nat → Nat → Option (List Nat)) (cfg : CampaignConfig)
    (used : Finset Nat) : SelData :=
  let primary := fetchedPrimary fetch cfg
  let pf := primary.filter (fun v => v ∉ used)
  let secondary := fetchedSecondary fetch cfg used
  let sf := secondary.filter (fun v => v ∉ used)
  { primaryBeforeFilter := primary.length, primaryAfterFilter := pf.length,
    secondaryBeforeFilter := secondary.length, secondaryAfterFilter := sf.length,
    selected := (pf ++ sf).take cfg.count }

/-- The list object returned by `createHubSpotList`. -/
structure RemoteList where
  listId : Nat
  legacyListId : Option Nat := none
deriving Repr, DecidableEq

/-- The fields shared by the persisted `CreatedList` record and the returned
campaign result of `processSingleCampaign` (lines 453-479). -/
structure CampaignResult where
  listId : Nat
  contactCount : Nat
  requestedCount : Nat
  availableCount : Nat
  filteredCount : Nat
  fulfillmentPercentage : Nat
deriving Repr, DecidableEq

/-- The environment of one campaign run: oracles for every remote effect.
`fetch listId n` is the result of `getContactsFromList listId n` (`none` =
throw); `createList i` is the result of `createHubSpotList` in campaign `i`
(`Except.error` = throw, the payload models the error); `attemptOk i` /
`sendAttemptOk i` are the membership-add PUT outcomes for campaign `i`'s
destination / send list; `duration i` is campaign `i`'s wall-clock
duration in ms. -/
structure CampaignEnv where
  fetch : Nat → Nat → Option (List Nat)
  createList : Nat → Except Nat RemoteList
  verifyManual : Nat → Bool
  attemptOk : Nat → Nat → Nat → Bool
  sendAttemptOk : Nat → Nat → Nat → Bool
  duration : Nat → Nat

/-- Observable outcome of one `processSingleCampaign` call: the returned
result (or thrown error), the selection, the used-contacts set after the
call (mutated at line 415, before list creation, hence updated even when
creation throws), and the count added to the auxiliary send list. -/
structure CampStep where
  result : Except Nat CampaignResult
  selected : List Nat
  usedAfter : Finset Nat
  sendAdded : Nat

/-- `processSingleCampaign(config, daysFilter, modeFilter, usedContactsSet)`
from the source (the two filter strings only feed persistence metadata and
are omitted).  `idx` is the campaign's position in the run, used to address
the per-campaign oracles. -/
def processSingleCampaign (env : CampaignEnv) (idx : Nat) (cfg : CampaignConfig)
    (used : Finset Nat) : CampStep :=
  let sel := selectCampaign env.fetch cfg used
  let used2 := used ∪ sel.selected.toFinset
  let fulfillmentPercentage :=
    if 0 < cfg.count then mathRound (100 * sel.selected.length) cfg.count else 0
  match env.createList idx with
  | .error e =>
    { result := .error e, selected := sel.selected, usedAfter := used2,
      sendAdded := 0 }
  | .ok newList =>
    let sendAdded :=
      if 0 < sel.selected.length then
        match cfg.sendContactListId with
        | some sid =>
          (addContactsToList env.verifyManual (env.sendAttemptOk idx) sid
            (some sel.selected) true).1
        | none => 0
      else 0
    let actualContactsAdded :=
      if 0 < sel.selected.length then
        (addContactsToList env.verifyManual (env.attemptOk idx) newList.listId
          (some sel.selected) true).1
      else 0
    { result := .ok
        { listId := newList.listId,
          contactCount := actualContactsAdded,
          requestedCount := cfg.count,
          availableCount := sel.primaryBeforeFilter + sel.secondaryBeforeFilter,
          filteredCount := (sel.primaryBeforeFilter - sel.primaryAfterFilter)
            + (sel.secondaryBeforeFilter - sel.secondaryAfterFilter),
          fulfillmentPercentage := fulfillmentPercentage },
      selected := sel.selected, usedAfter := used2, sendAdded := sendAdded }

/-- One entry of the `results` array of `processCampaignsWithDelay`. -/
inductive SettledResult
  | fulfilled (value : CampaignResult)
  | rejected (reason : Nat)
deriving Repr, DecidableEq

/-- Observable outcome of a whole run: the settled results in order, each
campaign's selection, the inter-campaign sleeps actually issued, the final
dedup set, and the simulated total wall-clock time in ms. -/
structure RunTrace where
  results : List SettledResult
  selections : List (List Nat)
  delays : List Nat
  usedFinal : Finset Nat
  totalTime : Nat

/-- The `for (const [index, config] of listConfigs.entries())` loop of
`processCampaignsWithDelay` with inter-campaign delay `d`
(`INTER_LIST_DELAY_MS` in the source): run the campaign, push its settled
result, and unless this is the last config sleep
`Math.max(0, d - elapsed)` where `elapsed` is the campaign's measured
duration (both the fulfilled and the rejected path do this). -/
def runLoop (env : CampaignEnv) (d : Nat) (total : Nat) :
    List CampaignConfig → Nat → Finset Nat → Nat → RunTrace
  | [], _, used, now =>
    { results := [], selections := [], delays := [], usedFinal := used,
      totalTime := now }
  | cfg :: rest, idx, used, now =>
    let step := processSingleCampaign env idx cfg used
    let elapsed := env.duration idx
    let settled : SettledResult :=
      match step.result with
      | .ok v => .fulfilled v
      | .error e => .rejected e
    let delay := jsDelay d elapsed
    let applyDelay := idx < total - 1
    let now1 := now + elapsed + (if applyDelay then delay else 0)
    let t := runLoop env d total rest (idx + 1) step.usedAfter now1
    { results := settled :: t.results,
      selections := step.selected :: t.selections,
      delays := (if applyDelay then [delay] else []) ++ t.delays,
      usedFinal := t.usedFinal,
      totalTime := t.totalTime }

/-- `processCampaignsWithDelay(listConfigs, ...)` from the source:
a fresh empty dedup set, campaigns strictly in order, simulated clock
starting at 0. -/
def processCampaignsWithDelay (env : CampaignEnv) (d : Nat)
    (cfgs : List CampaignConfig) : RunTrace :=
  runLoop env d cfgs.length cfgs 0 ∅ 0

/-- `results.filter(r => r.status === 'fulfilled').length`. -/
def successfulCount (t : RunTrace) : Nat :=
  (t.results.filter fun r => match r with | .fulfilled _ => true | _ => false).length

/-- `results.filter(r => r.status === 'rejected').length`. -/
def failedCount (t : RunTrace) : Nat :=
  (t.results.filter fun r => match r with | .rejected _ => true | _ => false).length

/-- Concrete environment: a one-contact primary list and an add endpoint on
which every PUT call fails. -/
def envAllFail : CampaignEnv :=
  { fetch := fun _ _ => some [7], createList := fun _ => .ok ⟨42, none⟩,
    verifyManual := fun _ => true, attemptOk := fun _ _ _ => false,
    sendAttemptOk := fun _ _ _ => false, duration := fun _ => 0 }

/-- Concrete environment: every source list is empty, every remote call
succeeds, every campaign takes 10 ms. -/
def envEmpty : CampaignEnv :=
  { fetch := fun _ _ => some [], createList := fun _ => .ok ⟨42, none⟩,
    verifyManual := fun _ => true, attemptOk := fun _ _ _ => true,
    sendAttemptOk := fun _ _ _ => true, duration := fun _ => 10 }

/-- Concrete environment: primary and secondary lists both contain contact 1,
every remote call succeeds. -/
def envDup : CampaignEnv :=
  { envEmpty with fetch := fun _ _ => some [1], duration := fun _ => 0 }

/-- Concrete environment: list creation throws in every campaign. -/
def envReject : CampaignEnv :=
  { envEmpty with createList := fun _ => .error 3 }

/-- Concrete config requesting 5 contacts from primary list 10. -/
def cfg5 : CampaignConfig := { count := 5, primaryListId := 10 }

section Lemmas

/-- The inner while loop does nothing once the index has passed the end. -/
theorem progressiveInner_past (arr : List Nat) (size index fuel : Nat)
    (h : arr.length ≤ index) : progressiveInner arr size index fuel = ([], index) := by
  cases fuel with
  | zero => rfl
  | succ f => simp [progressiveInner, Nat.not_lt.mpr h]

/-- With a positive size and enough fuel, the inner while loop chunks exactly
the remainder of the array, and ends with the index past the end. -/
theorem progressiveInner_flatten (arr : List Nat) (size : Nat) (hs : 1 ≤ size) :
    ∀ fuel index, arr.length ≤ index + fuel →
      (progressiveInner arr size index fuel).1.flatten = arr.drop index ∧
      arr.length ≤ (progressiveInner arr size index fuel).2 := by
  intro fuel
  induction fuel with
  | zero =>
    intro index h
    simp only [progressiveInner]
    constructor
    · exact (List.drop_eq_nil_of_le (by omega)).symm
    · omega
  | succ f ih =>
    intro index h
    by_cases hidx : index < arr.length
    · have hchunk : (((arr.drop index).take size)).length ≠ 0 := by
        simp only [List.length_take, List.length_drop]
        omega
      have hrec := ih (index + size) (by omega)
      simp only [progressiveInner, if_pos hidx, if_neg hchunk]
      refine ⟨?_, hrec.2⟩
      simp only [List.flatten_cons, hrec.1]
      rw [← List.drop_drop, List.take_append_drop]
    · simp only [progressiveInner, if_neg hidx]
      constructor
      · exact (List.drop_eq_nil_of_le (by omega)).symm
      · omega

/-- `progressiveChunks` with the default sizes partitions its input: the
concatenation of the produced chunks is the input list. -/
theorem progressiveChunks_flatten (arr : List Nat) :
    (progressiveChunks arr defaultSizes).flatten = arr := by
  have h300 := progressiveInner_flatten arr 300 (by omega) arr.length 0 (by omega)
  simp only [progressiveChunks, defaultSizes, List.foldl]
  rw [progressiveInner_past arr 100 _ _ h300.2,
    progressiveInner_past arr 50 _ _ h300.2,
    progressiveInner_past arr 1 _ _ h300.2]
  simpa using h300.1

/-- The chunk lengths of `progressiveChunks` with the default sizes sum to
the input length. -/
theorem progressiveChunks_length_sum (arr : List Nat) :
    ((progressiveChunks arr defaultSizes).map List.length).sum = arr.length := by
  rw [← List.length_flatten, progressiveChunks_flatten]

/-- The success count of the chunk loop is at most the total chunk length. -/
theorem addLoop_fst_le (ok : Nat → Nat → Bool) :
    ∀ (chunks : List (List Nat)) (idx : Nat),
      (addLoop ok idx chunks).1 ≤ (chunks.map List.length).sum := by
  intro chunks
  induction chunks with
  | nil => intro idx; simp [addLoop]
  | cons c rest ih =>
    intro idx
    simp only [addLoop, List.map_cons, List.sum_cons]
    have := ih (idx + 1)
    split <;> omega

/-- When every chunk's first PUT attempt succeeds, the success count of the
chunk loop is exactly the total chunk length. -/
theorem addLoop_fst_all_ok (ok : Nat → Nat → Bool) (hok : ∀ i, ok i 0 = true) :
    ∀ (chunks : List (List Nat)) (idx : Nat),
      (addLoop ok idx chunks).1 = (chunks.map List.length).sum := by
  intro chunks
  induction chunks with
  | nil => intro idx; simp [addLoop]
  | cons c rest ih =>
    intro idx
    have hfirst : chunkRetryLoop (ok idx) 0 MAX_RETRIES = (1, true) := by
      simp [chunkRetryLoop, MAX_RETRIES, hok idx]
    simp [addLoop, hfirst, ih (idx + 1)]

/-- Unfolding equation of `addContactsToList` on a present contacts array. -/
theorem addContactsToList_some (verifyManual : Nat → Bool)
    (attemptOk : Nat → Nat → Bool) (listId : Nat) (cs : List Nat) (skip : Bool) :
    addContactsToList verifyManual attemptOk listId (some cs) skip =
      if cs.length = 0 then (0, 0)
      else if skip = false ∧ verifyManual listId = false then (0, 0)
      else addLoop attemptOk 0 (progressiveChunks cs defaultSizes) := rfl

/-- `addContactsToList` never reports more contacts added than it was given. -/
theorem addContactsToList_fst_le (verifyManual : Nat → Bool)
    (attemptOk : Nat → Nat → Bool) (listId : Nat) (cs : List Nat) (skip : Bool) :
    (addContactsToList verifyManual attemptOk listId (some cs) skip).1 ≤ cs.length := by
  rw [addContactsToList_some]
  split_ifs
  · omega
  · omega
  · calc (addLoop attemptOk 0 (progressiveChunks cs defaultSizes)).1
        ≤ ((progressiveChunks cs defaultSizes).map List.length).sum :=
          addLoop_fst_le _ _ _
      _ = cs.length := progressiveChunks_length_sum cs

/-- With verification skipped and every first PUT attempt succeeding,
`addContactsToList` adds every contact it was given. -/
theorem addContactsToList_fst_all_ok (verifyManual : Nat → Bool)
    (attemptOk : Nat → Nat → Bool) (hok : ∀ i, attemptOk i 0 = true)
    (listId : Nat) (cs : List Nat) :
    (addContactsToList verifyManual attemptOk listId (some cs) true).1 = cs.length := by
  rw [addContactsToList_some]
  split_ifs with h0 h1
  · omega
  · simp at h1
  · rw [addLoop_fst_all_ok attemptOk hok, progressiveChunks_length_sum]

/-- Elements of a truncated concatenation, bounded by the truncation and by
the summed source bounds. -/
theorem take_append_length_le (pf sf : List Nat) (n a b : Nat)
    (ha : pf.length ≤ a) (hb : sf.length ≤ b) :
    ((pf ++ sf).take n).length ≤ n ∧ ((pf ++ sf).take n).length ≤ a + b := by
  simp only [List.length_take, List.length_append]
  omega

/-- Membership in a dedup-filtered list excludes membership in the set. -/
theorem mem_filter_not_used {l : List Nat} {used : Finset Nat} {v : Nat}
    (h : v ∈ l.filter (fun w => w ∉ used)) : v ∉ used := by
  simpa using (List.mem_filter.mp h).2

/-- The selection is no longer than the requested count and no longer than the
before-filter totals of the two source lists. -/
theorem selectCampaign_bounds (fetch : Nat → Nat → Option (List Nat))
    (cfg : CampaignConfig) (used : Finset Nat) :
    (selectCampaign fetch cfg used).selected.length ≤ cfg.count ∧
    (selectCampaign fetch cfg used).selected.length ≤
      (selectCampaign fetch cfg used).primaryBeforeFilter +
        (selectCampaign fetch cfg used).secondaryBeforeFilter := by
  exact take_append_length_le _ _ _ _ _ (List.length_filter_le _ _)
    (List.length_filter_le _ _)

/-- No selected contact was in the dedup set the campaign started with. -/
theorem selectCampaign_not_used (fetch : Nat → Nat → Option (List Nat))
    (cfg : CampaignConfig) (used : Finset Nat) (v : Nat)
    (hv : v ∈ (selectCampaign fetch cfg used).selected) : v ∉ used := by
  rcases List.mem_append.mp (List.mem_of_mem_take hv) with h | h
  · exact mem_filter_not_used h
  · exact mem_filter_not_used h

/-- The selection reported by a campaign step is the one computed by
`selectCampaign`, whether or not list creation throws. -/
theorem processSingleCampaign_selected (env : CampaignEnv) (idx : Nat)
    (cfg : CampaignConfig) (used : Finset Nat) :
    (processSingleCampaign env idx cfg used).selected =
      (selectCampaign env.fetch cfg used).selected := by
  unfold processSingleCampaign
  cases env.createList idx <;> rfl

/-- The dedup set after a campaign step is the entry set united with the
selection, whether or not list creation throws. -/
theorem processSingleCampaign_usedAfter (env : CampaignEnv) (idx : Nat)
    (cfg : CampaignConfig) (used : Finset Nat) :
    (processSingleCampaign env idx cfg used).usedAfter =
      used ∪ (selectCampaign env.fetch cfg used).selected.toFinset := by
  unfold processSingleCampaign
  cases env.createList idx <;> rfl

/-- When list creation succeeds, the campaign step returns exactly the record
built at lines 468-479 of the source. -/
theorem processSingleCampaign_ok (env : CampaignEnv) (idx : Nat)
    (cfg : CampaignConfig) (used : Finset Nat) (nl : RemoteList)
    (hc : env.createList idx = .ok nl) :
    (processSingleCampaign env idx cfg used).result = .ok
      { listId := nl.listId,
        contactCount :=
          if 0 < (selectCampaign env.fetch cfg used).selected.length then
            (addContactsToList env.verifyManual (env.attemptOk idx) nl.listId
              (some (selectCampaign env.fetch cfg used).selected) true).1
          else 0,
        requestedCount := cfg.count,
        availableCount := (selectCampaign env.fetch cfg used).primaryBeforeFilter
          + (selectCampaign env.fetch cfg used).secondaryBeforeFilter,
        filteredCount :=
          ((selectCampaign env.fetch cfg used).primaryBeforeFilter
            - (selectCampaign env.fetch cfg used).primaryAfterFilter)
          + ((selectCampaign env.fetch cfg used).secondaryBeforeFilter
            - (selectCampaign env.fetch cfg used).secondaryAfterFilter),
        fulfillmentPercentage :=
          if 0 < cfg.count then
            mathRound (100 * (selectCampaign env.fetch cfg used).selected.length)
              cfg.count
          else 0 } := by
  unfold processSingleCampaign
  rw [hc]

/-- When list creation throws, the campaign step reports that error. -/
theorem processSingleCampaign_error (env : CampaignEnv) (idx : Nat)
    (cfg : CampaignConfig) (used : Finset Nat) (e : Nat)
    (hc : env.createList idx = .error e) :
    (processSingleCampaign env idx cfg used).result = .error e := by
  unfold processSingleCampaign
  rw [hc]

/-- One-step unfolding of the `delays` trace of a run segment. -/
theorem runLoop_cons_delays (env : CampaignEnv) (d total : Nat)
    (cfg : CampaignConfig) (rest : List CampaignConfig) (idx : Nat)
    (used : Finset Nat) (now : Nat) :
    (runLoop env d total (cfg :: rest) idx used now).delays =
      (if idx < total - 1 then [jsDelay d (env.duration idx)] else []) ++
      (runLoop env d total rest (idx + 1)
        (processSingleCampaign env idx cfg used).usedAfter
        (now + env.duration idx +
          (if idx < total - 1 then jsDelay d (env.duration idx) else 0))).delays := rfl

/-- One-step unfolding of the `totalTime` of a run segment. -/
theorem runLoop_cons_totalTime (env : CampaignEnv) (d total : Nat)
    (cfg : CampaignConfig) (rest : List CampaignConfig) (idx : Nat)
    (used : Finset Nat) (now : Nat) :
    (runLoop env d total (cfg :: rest) idx used now).totalTime =
      (runLoop env d total rest (idx + 1)
        (processSingleCampaign env idx cfg used).usedAfter
        (now + env.duration idx +
          (if idx < total - 1 then jsDelay d (env.duration idx) else 0))).totalTime := rfl

/-- A run settles exactly one result per config. -/
theorem runLoop_results_length (env : CampaignEnv) (d total : Nat) :
    ∀ (cfgs : List CampaignConfig) (idx : Nat) (used : Finset Nat) (now : Nat),
      (runLoop env d total cfgs idx used now).results.length = cfgs.length := by
  intro cfgs
  induction cfgs with
  | nil => intro idx used now; rfl
  | cons cfg rest ih =>
    intro idx used now
    simp [runLoop, ih]

/-- A run records exactly one selection per config. -/
theorem runLoop_selections_length (env : CampaignEnv) (d total : Nat) :
    ∀ (cfgs : List CampaignConfig) (idx : Nat) (used : Finset Nat) (now : Nat),
      (runLoop env d total cfgs idx used now).selections.length = cfgs.length := by
  intro cfgs
  induction cfgs with
  | nil => intro idx used now; rfl
  | cons cfg rest ih =>
    intro idx used now
    simp [runLoop, ih]

/-- No contact of the dedup set a run segment starts with occurs in any of
its selections. -/
theorem runLoop_selections_not_used (env : CampaignEnv) (d total : Nat) :
    ∀ (cfgs : List CampaignConfig) (idx : Nat) (used : Finset Nat) (now : Nat)
      (l : List Nat), l ∈ (runLoop env d total cfgs idx used now).selections →
      ∀ v ∈ l, v ∉ used := by
  intro cfgs
  induction cfgs with
  | nil => intro idx used now l hl; simp [runLoop] at hl
  | cons cfg rest ih =>
    intro idx used now l hl v hv
    simp only [runLoop, List.mem_cons] at hl
    rcases hl with rfl | hl
    · rw [processSingleCampaign_selected] at hv
      exact selectCampaign_not_used _ _ _ _ hv
    · have hnot := ih (idx + 1) (processSingleCampaign env idx cfg used).usedAfter
        _ l hl v hv
      rw [processSingleCampaign_usedAfter] at hnot
      intro hmem
      exact hnot (Finset.mem_union_left _ hmem)

/-- The selections of a run segment are pairwise disjoint. -/
theorem runLoop_selections_pairwise (env : CampaignEnv) (d total : Nat) :
    ∀ (cfgs : List CampaignConfig) (idx : Nat) (used : Finset Nat) (now : Nat),
      List.Pairwise (fun a b => ∀ v, v ∈ a → v ∉ b)
        (runLoop env d total cfgs idx used now).selections := by
  intro cfgs
  induction cfgs with
  | nil => intro idx used now; simp [runLoop]
  | cons cfg rest ih =>
    intro idx used now
    simp only [runLoop]
    rw [List.pairwise_cons]
    constructor
    · intro b hb v hv hvb
      have hnot := runLoop_selections_not_used env d total rest (idx + 1)
        (processSingleCampaign env idx cfg used).usedAfter _ b hb v hvb
      rw [processSingleCampaign_usedAfter, processSingleCampaign_selected] at *
      exact hnot (Finset.mem_union_right _ (List.mem_toFinset.mpr hv))
    · exact ih (idx + 1) _ _

/-- The final dedup set of a run segment has at most the entry set's size plus
the summed selection sizes. -/
theorem runLoop_usedFinal_card (env : CampaignEnv) (d total : Nat) :
    ∀ (cfgs : List CampaignConfig) (idx : Nat) (used : Finset Nat) (now : Nat),
      (runLoop env d total cfgs idx used now).usedFinal.card ≤ used.card +
        ((runLoop env d total cfgs idx used now).selections.map List.length).sum := by
  intro cfgs
  induction cfgs with
  | nil => intro idx used now; simp [runLoop]
  | cons cfg rest ih =>
    intro idx used now
    simp only [runLoop, List.map_cons, List.sum_cons]
    have hstep : (processSingleCampaign env idx cfg used).usedAfter.card ≤
        used.card + (processSingleCampaign env idx cfg used).selected.length := by
      rw [processSingleCampaign_usedAfter, processSingleCampaign_selected]
      calc (used ∪ (selectCampaign env.fetch cfg used).selected.toFinset).card
          ≤ used.card + (selectCampaign env.fetch cfg used).selected.toFinset.card :=
            Finset.card_union_le _ _
        _ ≤ used.card + (selectCampaign env.fetch cfg used).selected.length := by
            have := List.toFinset_card_le (selectCampaign env.fetch cfg used).selected
            omega
    have := ih (idx + 1) (processSingleCampaign env idx cfg used).usedAfter
      (now + env.duration idx +
        (if idx < total - 1 then jsDelay d (env.duration idx) else 0))
    omega

/-- The settled result at position `k` of a run segment is `rejected e` when
list creation throws `e` in that campaign. -/
theorem runLoop_results_rejected (env : CampaignEnv) (d total : Nat) :
    ∀ (cfgs : List CampaignConfig) (k idx : Nat) (used : Finset Nat) (now : Nat)
      (e : Nat), k < cfgs.length → env.createList (idx + k) = .error e →
      (runLoop env d total cfgs idx used now).results.get? k =
        some (.rejected e) := by
  intro cfgs
  induction cfgs with
  | nil => intro k idx used now e hk; simp at hk
  | cons cfg rest ih =>
    intro k idx used now e hk he
    cases k with
    | zero =>
      simp only [Nat.add_zero] at he
      simp [runLoop, processSingleCampaign_error env idx cfg used e he]
    | succ k =>
      simp only [runLoop, List.get?_cons_succ]
      exact ih k (idx + 1) _ _ e (by simpa using hk) (by rw [← he]; ring_nf)

/-- The settled result at position `k` of a run segment is a fulfilled value
when list creation succeeds in that campaign. -/
theorem runLoop_results_fulfilled (env : CampaignEnv) (d total : Nat) :
    ∀ (cfgs : List CampaignConfig) (k idx : Nat) (used : Finset Nat) (now : Nat)
      (nl : RemoteList), k < cfgs.length → env.createList (idx + k) = .ok nl →
      ∃ v, (runLoop env d total cfgs idx used now).results.get? k =
        some (.fulfilled v) := by
  intro cfgs
  induction cfgs with
  | nil => intro k idx used now nl hk; simp at hk
  | cons cfg rest ih =>
    intro k idx used now nl hk hc
    cases k with
    | zero =>
      simp only [Nat.add_zero] at hc
      have hget : (runLoop env d total (cfg :: rest) idx used now).results.get? 0 =
          some (match (processSingleCampaign env idx cfg used).result with
                | .ok v => SettledResult.fulfilled v
                | .error e => SettledResult.rejected e) := rfl
      rw [processSingleCampaign_ok env idx cfg used nl hc] at hget
      exact ⟨_, hget⟩
    | succ k =>
      simp only [runLoop, List.get?_cons_succ]
      exact ih k (idx + 1) _ _ nl (by simpa using hk) (by rw [← hc]; ring_nf)

/-- The sleeps of a run segment covering positions `idx` to `total - 1`:
one sleep of `max(0, d - elapsed)` after every campaign except the last. -/
theorem runLoop_delays (env : CampaignEnv) (d total : Nat) :
    ∀ (cfgs : List CampaignConfig) (idx : Nat) (used : Finset Nat) (now : Nat),
      idx + cfgs.length = total →
      (runLoop env d total cfgs idx used now).delays =
        (List.range' idx (cfgs.length - 1)).map (fun k => jsDelay d (env.duration k)) := by
  intro cfgs
  induction cfgs with
  | nil => intro idx used now h; rfl
  | cons cfg rest ih =>
    intro idx used now h
    rw [runLoop_cons_delays]
    cases rest with
    | nil =>
      have hnot : ¬ idx < total - 1 := by
        simp only [List.length_cons, List.length_nil] at h
        omega
      simp [runLoop, hnot]
    | cons cfg2 rest2 =>
      have hlt : idx < total - 1 := by
        simp only [List.length_cons] at h
        omega
      rw [ih (idx + 1) (processSingleCampaign env idx cfg used).usedAfter
        (now + env.duration idx + (if idx < total - 1 then jsDelay d (env.duration idx) else 0))
        (by simp only [List.length_cons] at h ⊢; omega)]
      simp only [if_pos hlt, List.length_cons, Nat.add_sub_cancel]
      rw [List.range'_succ]
      simp

/-- The total simulated time of a run segment: start time plus all campaign
durations plus all sleeps issued. -/
theorem runLoop_totalTime (env : CampaignEnv) (d total : Nat) :
    ∀ (cfgs : List CampaignConfig) (idx : Nat) (used : Finset Nat) (now : Nat),
      (runLoop env d total cfgs idx used now).totalTime =
        now + ((List.range' idx cfgs.length).map env.duration).sum +
          (runLoop env d total cfgs idx used now).delays.sum := by
  intro cfgs
  induction cfgs with
  | nil => intro idx used now; simp [runLoop]
  | cons cfg rest ih =>
    intro idx used now
    rw [runLoop_cons_totalTime, runLoop_cons_delays, ih (idx + 1)]
    simp only [List.length_cons, List.range'_succ, List.map_cons,
      List.sum_cons, List.sum_append]
    split <;> simp <;> omega

/-- `Math.max(0, d - e)` over JS numbers is truncated subtraction on `Nat`. -/
theorem jsDelay_eq (d e : Nat) : jsDelay d e = d - e := by
  simp only [jsDelay]
  omega

/-- Pairwise lower bound for two sums over the same index range. -/
theorem mul_le_sum_add_sum (d : Nat) (f g : Nat → Nat) (h : ∀ k, d ≤ f k + g k) :
    ∀ m, m * d ≤ ((List.range m).map f).sum + ((List.range m).map g).sum := by
  intro m
  induction m with
  | zero => simp
  | succ n ih =>
    have hn := h n
    simp only [List.range_succ, List.map_append, List.sum_append, List.map_cons,
      List.map_nil, List.sum_cons, List.sum_nil]
    have : (n + 1) * d = n * d + d := by ring
    omega

/-- Unfolding of `fetchStep` on an error response that is not a
first-attempt 404. -/
theorem fetchStep_err (resp : Nat → PageResp) (listId : Nat)
    (maxCount : Option Nat) (s : FetchState) (status : Nat)
    (herr : resp s.totalAttempts = .err status)
    (hnot : ¬ (status = 404 ∧ s.totalAttempts + 1 = 1)) :
    fetchStep resp listId maxCount s =
      if 0 < s.allContacts.length ∧ MAX_RETRIES ≤ s.consecutiveErrors + 1 then
        .exit { s with consecutiveErrors := s.consecutiveErrors + 1,
                       totalAttempts := s.totalAttempts + 1 }
      else if s.allContacts.length = 0 ∧ MAX_RETRIES ≤ s.consecutiveErrors + 1 then
        .fail (.retrievalFailed listId status)
      else
        .next { s with consecutiveErrors := s.consecutiveErrors + 1,
                       totalAttempts := s.totalAttempts + 1,
                       backoffDelays := s.backoffDelays ++
                         [min (1000 * 2 ^ (s.consecutiveErrors + 1 - 1)) 10000] } := by
  unfold fetchStep
  rw [herr]
  simp only [if_neg hnot]

/-- One-step unfolding of the fetch loop at positive fuel. -/
theorem fetchLoop_succ (resp : Nat → PageResp) (listId : Nat)
    (maxCount : Option Nat) (f : Nat) (s : FetchState) :
    fetchLoop resp listId maxCount (f + 1) s =
      if s.hasMore = true ∧ ltMax s.allContacts.length maxCount = true then
        match fetchStep resp listId maxCount s with
        | .next s1 => fetchLoop resp listId maxCount f s1
        | .exit s1 => some (s1, none)
        | .fail e => some (s, some e)
      else some (s, none) := rfl

/-- One loop iteration of `fetchRun` that continues. -/
theorem fetchRun_next (resp : Nat → PageResp) (listId : Nat)
    (maxCount : Option Nat) (f : Nat) (s s1 : FetchState)
    (hcond : s.hasMore = true ∧ ltMax s.allContacts.length maxCount = true)
    (hstep : fetchStep resp listId maxCount s = .next s1) :
    fetchRun resp listId maxCount (f + 1) s = fetchRun resp listId maxCount f s1 := by
  unfold fetchRun
  rw [fetchLoop_succ, if_pos hcond, hstep]

/-- One loop iteration of `fetchRun` that breaks out of the loop. -/
theorem fetchRun_exit (resp : Nat → PageResp) (listId : Nat)
    (maxCount : Option Nat) (f : Nat) (s s1 : FetchState)
    (hcond : s.hasMore = true ∧ ltMax s.allContacts.length maxCount = true)
    (hstep : fetchStep resp listId maxCount s = .exit s1) :
    fetchRun resp listId maxCount (f + 1) s = some (fetchFinish listId s1, s1) := by
  unfold fetchRun
  rw [fetchLoop_succ, if_pos hcond, hstep]

/-- One loop iteration of `fetchRun` that throws. -/
theorem fetchRun_fail (resp : Nat → PageResp) (listId : Nat)
    (maxCount : Option Nat) (f : Nat) (s : FetchState) (e : FetchError)
    (hcond : s.hasMore = true ∧ ltMax s.allContacts.length maxCount = true)
    (hstep : fetchStep resp listId maxCount s = .fail e) :
    fetchRun resp listId maxCount (f + 1) s = some (.error e, s) := by
  unfold fetchRun
  rw [fetchLoop_succ, if_pos hcond, hstep]

end Lemmas

section Claims

set_option maxRecDepth 8000 in
/-- Claim C1, counterexample: when the single selected contact fails to be
added (every PUT attempt fails), `processSingleCampaign` still reports a
fulfillment of 100 %, although round(actualContactsAdded / requestedCount
× 100) = round(0 / 1 × 100) = 0.  The stored percentage is computed from the
selected count, not the actually-added count. -/
theorem c1_counterexample :
    ∃ r, (processSingleCampaign envAllFail 0 { count := 1, primaryListId := 10 }
        ∅).result = Except.ok r ∧
      r.contactCount = 0 ∧ r.requestedCount = 1 ∧
      mathRound (100 * r.contactCount) r.requestedCount = 0 ∧
      r.fulfillmentPercentage = 100 := by
  exact ⟨_, rfl, rfl, rfl, rfl, rfl⟩

/-- Claim C1 (amended): the fulfillment percentage stored and returned by
`processSingleCampaign` is round(selectedCount / requestedCount × 100) when
requestedCount > 0 and 0 otherwise, computed from the number of selected
contacts before any membership write; it agrees with
round(actualContactsAdded / requestedCount × 100) whenever every
membership-add batch succeeds. -/
theorem c1_fulfillment (env : CampaignEnv) (idx : Nat) (cfg : CampaignConfig)
    (used : Finset Nat) (r : CampaignResult)
    (hr : (processSingleCampaign env idx cfg used).result = .ok r) :
    (r.fulfillmentPercentage =
      if 0 < r.requestedCount then
        mathRound (100 * (selectCampaign env.fetch cfg used).selected.length)
          r.requestedCount
      else 0) ∧
    ((∀ i, env.attemptOk idx i 0 = true) →
      r.fulfillmentPercentage =
        if 0 < r.requestedCount then
          mathRound (100 * r.contactCount) r.requestedCount
        else 0) := by
  cases hc : env.createList idx with
  | error e =>
    rw [processSingleCampaign_error env idx cfg used e hc] at hr
    cases hr
  | ok nl =>
    rw [processSingleCampaign_ok env idx cfg used nl hc] at hr
    injection hr with hr
    subst hr
    refine ⟨rfl, fun hok => ?_⟩
    have hadd := addContactsToList_fst_all_ok env.verifyManual (env.attemptOk idx)
      hok nl.listId (selectCampaign env.fetch cfg used).selected
    show (if 0 < cfg.count then
        mathRound (100 * (selectCampaign env.fetch cfg used).selected.length)
          cfg.count else 0) =
      if 0 < cfg.count then
        mathRound (100 * (if 0 < (selectCampaign env.fetch cfg used).selected.length
          then (addContactsToList env.verifyManual (env.attemptOk idx) nl.listId
            (some (selectCampaign env.fetch cfg used).selected) true).1 else 0))
          cfg.count
      else 0
    rw [hadd]
    by_cases h0 : 0 < (selectCampaign env.fetch cfg used).selected.length
    · rw [if_pos h0]
    · rw [if_neg h0]
      have : (selectCampaign env.fetch cfg used).selected.length = 0 := by omega
      rw [this]

set_option maxRecDepth 8000 in
/-- Claim C1 witness: a concrete campaign on which every membership batch
succeeds, where the amended statement is evaluated. -/
theorem c1_fulfillment_witness :
    ∃ r, (processSingleCampaign envDup 0
        { count := 2, primaryListId := 10, secondaryListId := some 20 } ∅).result =
      Except.ok r ∧
      r.fulfillmentPercentage =
        (if 0 < r.requestedCount then
          mathRound (100 * r.contactCount) r.requestedCount else 0) := by
  refine ⟨_, rfl, ?_⟩
  exact (c1_fulfillment envDup 0
    { count := 2, primaryListId := 10, secondaryListId := some 20 } ∅ _ rfl).2
    (fun i => rfl)

set_option maxRecDepth 100000 in
/-- Claim C2: evaluation of the membership-writer chunking at the claim's
650-contact input.  The inner `while (index < arr.length)` loop of
`progressiveChunks` consumes the whole array at the first size (300), so the
batch sizes are [300, 300, 50], not the [300, 100, 50, 50, 50, 50, 50] of the
progressive scheme the claim (and the `sizes = [300, 100, 50, 1]` default)
describes. -/
theorem c2_progressive_chunks_650 :
    (progressiveChunks (List.range 650) defaultSizes).map List.length =
      [300, 300, 50] ∧
    [300, 300, 50] ≠ [300, 100, 50, 50, 50, 50, 50] := by
  constructor
  · rfl
  · decide

set_option maxRecDepth 8000 in
/-- Claim C3, counterexample: a campaign requesting 5 contacts from an empty
source list yields `requestedCount = 5 > 0 = availableCount`, so the chain
`actualContactsAdded ≤ requestedCount ≤ availableCount` fails in its second
inequality. -/
theorem c3_counterexample :
    ∃ r, (processSingleCampaign envEmpty 0 cfg5 ∅).result = Except.ok r ∧
      ¬ (r.requestedCount ≤ r.availableCount) := by
  exact ⟨_, rfl, by decide⟩

/-- Claim C3 (amended): every result of `processSingleCampaign` satisfies
`actualContactsAdded ≤ requestedCount` and
`actualContactsAdded ≤ availableCount`; the third part of the claimed chain,
`requestedCount ≤ availableCount`, does not hold in general. -/
theorem c3_bounds (env : CampaignEnv) (idx : Nat) (cfg : CampaignConfig)
    (used : Finset Nat) (r : CampaignResult)
    (hr : (processSingleCampaign env idx cfg used).result = .ok r) :
    r.contactCount ≤ r.requestedCount ∧ r.contactCount ≤ r.availableCount := by
  cases hc : env.createList idx with
  | error e =>
    rw [processSingleCampaign_error env idx cfg used e hc] at hr
    cases hr
  | ok nl =>
    rw [processSingleCampaign_ok env idx cfg used nl hc] at hr
    injection hr with hr
    subst hr
    have hb := selectCampaign_bounds env.fetch cfg used
    have hadd := addContactsToList_fst_le env.verifyManual (env.attemptOk idx)
      nl.listId (selectCampaign env.fetch cfg used).selected true
    constructor
    · show (if 0 < (selectCampaign env.fetch cfg used).selected.length then
          (addContactsToList env.verifyManual (env.attemptOk idx) nl.listId
            (some (selectCampaign env.fetch cfg used).selected) true).1
        else 0) ≤ cfg.count
      split
      · omega
      · omega
    · show (if 0 < (selectCampaign env.fetch cfg used).selected.length then
          (addContactsToList env.verifyManual (env.attemptOk idx) nl.listId
            (some (selectCampaign env.fetch cfg used).selected) true).1
        else 0) ≤ (selectCampaign env.fetch cfg used).primaryBeforeFilter +
          (selectCampaign env.fetch cfg used).secondaryBeforeFilter
      split
      · omega
      · omega

set_option maxRecDepth 8000 in
/-- Claim C3 witness: the amended bounds evaluated on a concrete campaign. -/
theorem c3_bounds_witness :
    ∃ r, (processSingleCampaign envDup 1
        { count := 2, primaryListId := 10, secondaryListId := some 20 } ∅).result =
      Except.ok r ∧
      r.contactCount ≤ r.requestedCount ∧ r.contactCount ≤ r.availableCount := by
  refine ⟨_, rfl, ?_⟩
  exact c3_bounds envDup 1
    { count := 2, primaryListId := 10, secondaryListId := some 20 } ∅ _ rfl

/-- Claim C4: in any run, the per-campaign selections are pairwise disjoint
(no contact id is selected by two different campaigns), and the final dedup
set holds at most the sum of the selected-contact counts. -/
theorem c4_dedup_invariant (env : CampaignEnv) (d : Nat)
    (cfgs : List CampaignConfig) :
    List.Pairwise (fun a b => ∀ v, v ∈ a → v ∉ b)
      (processCampaignsWithDelay env d cfgs).selections ∧
    (processCampaignsWithDelay env d cfgs).usedFinal.card ≤
      ((processCampaignsWithDelay env d cfgs).selections.map List.length).sum := by
  constructor
  · exact runLoop_selections_pairwise env d cfgs.length cfgs 0 ∅ 0
  · have h := runLoop_usedFinal_card env d cfgs.length cfgs 0 ∅ 0
    simpa using h

/-- Claim C5: a 404 on the very first page request makes
`getContactsFromList` raise the legacy/incompatible-format error naming the
list id, after exactly one request (no retry, no backoff sleep) and without
returning an empty success result. -/
theorem c5_first_page_404 (resp : Nat → PageResp) (listId : Nat)
    (maxCount : Option Nat) (fuel : Nat) (h404 : resp 0 = .err 404)
    (hmax : ltMax 0 maxCount = true) :
    ∃ s, getContactsFromList resp listId maxCount (fuel + 1) =
        some (.error (.legacyList listId), s) ∧
      s.totalAttempts = 1 ∧ s.backoffDelays = [] ∧ s.allContacts = [] := by
  refine ⟨{ isLegacyList := true, totalAttempts := 1 }, ?_, rfl, rfl, rfl⟩
  have hstep : fetchStep resp listId maxCount {} =
      .exit { isLegacyList := true, totalAttempts := 1 } := by
    unfold fetchStep
    rw [h404]
    simp
  have hrun := fetchRun_exit resp listId maxCount fuel {}
    { isLegacyList := true, totalAttempts := 1 } ⟨rfl, hmax⟩ hstep
  rw [show getContactsFromList resp listId maxCount (fuel + 1) =
    fetchRun resp listId maxCount (fuel + 1) {} from rfl, hrun]
  simp [fetchFinish, getContactsFromLegacyList]

/-- Claim C5 witness: the scenario evaluated at a concrete mocked endpoint
whose first response is a 404. -/
theorem c5_first_page_404_witness :
    ∃ s, getContactsFromList (fun _ => .err 404) 5 none 1 =
        some (.error (.legacyList 5), s) ∧
      s.totalAttempts = 1 ∧ s.backoffDelays = [] ∧ s.allContacts = [] :=
  c5_first_page_404 (fun _ => .err 404) 5 none 0 rfl rfl

/-- Claim C6: on a non-404-first-page error, `getContactsFromList` retries
after a backoff sleep of `min(1000·2^(consecutiveErrors−1), 10000)` ms as
long as the consecutive-error count stays below `MAX_RETRIES` (3); when the
ceiling is reached it returns the (deduplicated) partial result if any
contacts were already collected, and otherwise throws the retrieval-failed
error carrying the list id and the underlying cause. -/
theorem c6_retry_policy (resp : Nat → PageResp) (listId : Nat)
    (maxCount : Option Nat) (f : Nat) (s : FetchState) (status : Nat)
    (hmore : s.hasMore = true)
    (hlt : ltMax s.allContacts.length maxCount = true)
    (herr : resp s.totalAttempts = .err status)
    (hnot : ¬ (status = 404 ∧ s.totalAttempts + 1 = 1))
    (hleg : s.isLegacyList = false) :
    (s.consecutiveErrors + 1 < MAX_RETRIES →
      fetchRun resp listId maxCount (f + 1) s =
        fetchRun resp listId maxCount f
          { s with consecutiveErrors := s.consecutiveErrors + 1,
                   totalAttempts := s.totalAttempts + 1,
                   backoffDelays := s.backoffDelays ++
                     [min (1000 * 2 ^ (s.consecutiveErrors + 1 - 1)) 10000] }) ∧
    (MAX_RETRIES ≤ s.consecutiveErrors + 1 → 0 < s.allContacts.length →
      fetchRun resp listId maxCount (f + 1) s =
        some (.ok s.allContacts.eraseDups,
          { s with consecutiveErrors := s.consecutiveErrors + 1,
                   totalAttempts := s.totalAttempts + 1 })) ∧
    (MAX_RETRIES ≤ s.consecutiveErrors + 1 → s.allContacts.length = 0 →
      fetchRun resp listId maxCount (f + 1) s =
        some (.error (.retrievalFailed listId status), s)) := by
  have hstep := fetchStep_err resp listId maxCount s status herr hnot
  refine ⟨fun hce => ?_, fun hce hlen => ?_, fun hce hlen => ?_⟩
  · have hstep2 : fetchStep resp listId maxCount s =
        .next ({ s with consecutiveErrors := s.consecutiveErrors + 1, totalAttempts := s.totalAttempts + 1, backoffDelays := s.backoffDelays ++ [min (1000 * 2 ^ (s.consecutiveErrors + 1 - 1)) 10000] }) := by
      rw [hstep, if_neg (by simp only [MAX_RETRIES] at hce ⊢; omega),
        if_neg (by simp only [MAX_RETRIES] at hce ⊢; omega)]
    exact fetchRun_next resp listId maxCount f s _ ⟨hmore, hlt⟩ hstep2
  · have hstep2 : fetchStep resp listId maxCount s =
        .exit ({ s with consecutiveErrors := s.consecutiveErrors + 1, totalAttempts := s.totalAttempts + 1 }) := by
      rw [hstep, if_pos ⟨hlen, hce⟩]
    rw [fetchRun_exit resp listId maxCount f s _ ⟨hmore, hlt⟩ hstep2]
    have hfin : fetchFinish listId
        { s with consecutiveErrors := s.consecutiveErrors + 1,
                 totalAttempts := s.totalAttempts + 1 } =
        .ok s.allContacts.eraseDups := by
      unfold fetchFinish
      rw [if_neg (fun hcon => by
            have h2 : s.allContacts.length = 0 := hcon.2.1
            omega),
        if_neg (fun hcon => by
            have h2 : s.isLegacyList = true := hcon
            simp [hleg] at h2)]
    rw [hfin]
  · have hstep2 : fetchStep resp listId maxCount s =
        .fail (.retrievalFailed listId status) := by
      rw [hstep, if_neg (by omega), if_pos ⟨hlen, hce⟩]
    exact fetchRun_fail resp listId maxCount f s _ ⟨hmore, hlt⟩ hstep2

/-- Claim C6 witness: the retry branch evaluated at a concrete mocked
endpoint that always returns a 500, from the initial state: the first
failure schedules a 1000 ms backoff and retries. -/
theorem c6_retry_policy_witness :
    fetchRun (fun _ => .err 500) 7 none 1 {} =
      fetchRun (fun _ => .err 500) 7 none 0
        { consecutiveErrors := 1, totalAttempts := 1, backoffDelays := [1000] } := by
  have h := (c6_retry_policy (fun _ => .err 500) 7 none 0 {} 500 rfl rfl rfl
    (by decide) rfl).1 (by decide)
  exact h

/-- Claim C7: `addContactsToList` returns 0 added contacts and issues zero
membership-add calls for a missing or empty input array, and, when
verification is not skipped, for any list the manual-mode check rejects. -/
theorem c7_add_noop :
    (∀ (verify : Nat → Bool) (ok : Nat → Nat → Bool) (listId : Nat) (skip : Bool),
      addContactsToList verify ok listId none skip = (0, 0) ∧
      addContactsToList verify ok listId (some []) skip = (0, 0)) ∧
    (∀ (verify : Nat → Bool) (ok : Nat → Nat → Bool) (listId : Nat) (cs : List Nat),
      verify listId = false →
      addContactsToList verify ok listId (some cs) false = (0, 0)) := by
  constructor
  · intro verify ok listId skip
    exact ⟨rfl, rfl⟩
  · intro verify ok listId cs hv
    rw [addContactsToList_some]
    by_cases h0 : cs.length = 0
    · rw [if_pos h0]
    · rw [if_neg h0, if_pos ⟨rfl, hv⟩]

/-- Claim C7 witness: a non-manual list with a non-empty input: zero added,
zero add calls. -/
theorem c7_add_noop_witness :
    addContactsToList (fun _ => false) (fun _ _ => true) 9 (some [1, 2, 3]) false =
      (0, 0) :=
  c7_add_noop.2 (fun _ => false) (fun _ _ => true) 9 [1, 2, 3] rfl

/-- Claim C8: a campaign whose list creation throws is recorded as a
rejected result at its position, every other campaign still settles (one
result per config, fulfilled whenever its own creation succeeds), the run
itself never throws (the sequencer is total and returns a full report), and
the inter-campaign delay is still applied after the failed campaign. -/
theorem c8_failure_isolated (env : CampaignEnv) (d : Nat)
    (cfgs : List CampaignConfig) (k e : Nat)
    (hk : k < cfgs.length) (he : env.createList k = .error e) :
    (processCampaignsWithDelay env d cfgs).results.length = cfgs.length ∧
    (processCampaignsWithDelay env d cfgs).results.get? k =
      some (.rejected e) ∧
    (∀ j nl, j < cfgs.length → env.createList j = .ok nl →
      ∃ v, (processCampaignsWithDelay env d cfgs).results.get? j =
        some (.fulfilled v)) ∧
    (k < cfgs.length - 1 →
      (processCampaignsWithDelay env d cfgs).delays.get? k =
        some (jsDelay d (env.duration k))) := by
  refine ⟨runLoop_results_length env d cfgs.length cfgs 0 ∅ 0, ?_, ?_, ?_⟩
  · exact runLoop_results_rejected env d cfgs.length cfgs k 0 ∅ 0 e hk
      (by simpa using he)
  · intro j nl hj hc
    exact runLoop_results_fulfilled env d cfgs.length cfgs j 0 ∅ 0 nl hj
      (by simpa using hc)
  · intro hklt
    have hd := runLoop_delays env d cfgs.length cfgs 0 ∅ 0 (by omega)
    show (runLoop env d cfgs.length cfgs 0 ∅ 0).delays.get? k = _
    rw [hd, List.get?_map, ← List.range_eq_range', List.get?_range hklt]
    rfl

/-- Claim C8 witness: one campaign that throws: the report shows the
rejection at position 0, zero successes, one failure. -/
theorem c8_failure_isolated_witness :
    (processCampaignsWithDelay envReject 1000 [cfg5]).results.get? 0 =
      some (.rejected 3) ∧
    successfulCount (processCampaignsWithDelay envReject 1000 [cfg5]) = 0 ∧
    failedCount (processCampaignsWithDelay envReject 1000 [cfg5]) = 1 := by
  refine ⟨(c8_failure_isolated envReject 1000 [cfg5] 0 3 (by decide) rfl).2.1,
    rfl, rfl⟩

/-- Claim C9: after every campaign except the last, the sequencer sleeps
exactly `max(0, d − elapsed)` where `elapsed` is that campaign's wall-clock
duration, and sleeps nothing after the last (the delay trace is exactly one
entry per non-final campaign); consequently the total wall-clock time of a
run is at least `(n − 1) · d`, and a concrete run of 3 campaigns of 10 ms
each with `d = 1000` ms takes at least 2000 ms and less than 2500 ms. -/
theorem c9_delay_schedule :
    (∀ (env : CampaignEnv) (d : Nat) (cfgs : List CampaignConfig),
      (processCampaignsWithDelay env d cfgs).delays =
        (List.range (cfgs.length - 1)).map (fun k => jsDelay d (env.duration k))) ∧
    (∀ (env : CampaignEnv) (d : Nat) (cfgs : List CampaignConfig),
      (cfgs.length - 1) * d ≤ (processCampaignsWithDelay env d cfgs).totalTime) ∧
    (2000 ≤ (processCampaignsWithDelay envEmpty 1000 [cfg5, cfg5, cfg5]).totalTime ∧
      (processCampaignsWithDelay envEmpty 1000 [cfg5, cfg5, cfg5]).totalTime < 2500) := by
  have hdelays : ∀ (env : CampaignEnv) (d : Nat) (cfgs : List CampaignConfig),
      (processCampaignsWithDelay env d cfgs).delays =
        (List.range (cfgs.length - 1)).map (fun k => jsDelay d (env.duration k)) := by
    intro env d cfgs
    have h := runLoop_delays env d cfgs.length cfgs 0 ∅ 0 (by omega)
    rw [← List.range_eq_range'] at h
    exact h
  refine ⟨hdelays, ?_, by decide, by decide⟩
  intro env d cfgs
  have htot := runLoop_totalTime env d cfgs.length cfgs 0 ∅ 0
  have hd := hdelays env d cfgs
  rcases Nat.eq_zero_or_pos cfgs.length with h0 | hpos
  · simp [h0]
  · have hmul := mul_le_sum_add_sum d env.duration
      (fun k => jsDelay d (env.duration k))
      (fun k => by simp only [jsDelay_eq]; omega) (cfgs.length - 1)
    have hsplit : ((List.range' 0 cfgs.length).map env.duration).sum =
        ((List.range (cfgs.length - 1)).map env.duration).sum +
          env.duration (cfgs.length - 1) := by
      rw [← List.range_eq_range']
      conv_lhs => rw [show cfgs.length = (cfgs.length - 1) + 1 by omega]
      rw [List.range_succ]
      simp
    have hds : (runLoop env d cfgs.length cfgs 0 ∅ 0).delays.sum =
        ((List.range (cfgs.length - 1)).map
          (fun k => jsDelay d (env.duration k))).sum := by
      rw [show (runLoop env d cfgs.length cfgs 0 ∅ 0).delays =
        (processCampaignsWithDelay env d cfgs).delays from rfl, hd]
    show (cfgs.length - 1) * d ≤ (runLoop env d cfgs.length cfgs 0 ∅ 0).totalTime
    omega

/-- Claim C10: within one campaign, the selection is exactly the first
`requestedCount` elements of the dedup-filtered primary contacts followed by
the dedup-filtered secondary contacts, with no deduplication between the two
lists; concretely, when both lists contain contact 1 and two contacts are
requested, contact 1 is selected twice and counted twice in the membership
adds. -/
theorem c10_no_cross_list_dedup :
    (∀ (fetch : Nat → Nat → Option (List Nat)) (cfg : CampaignConfig)
      (used : Finset Nat),
      (selectCampaign fetch cfg used).selected =
        ((fetchedPrimary fetch cfg).filter (fun v => v ∉ used) ++
          (fetchedSecondary fetch cfg used).filter (fun v => v ∉ used)).take
          cfg.count) ∧
    (processSingleCampaign envDup 0
      { count := 2, primaryListId := 10, secondaryListId := some 20 } ∅).selected =
      [1, 1] ∧
    (processSingleCampaign envDup 0
      { count := 2, primaryListId := 10, secondaryListId := some 20 } ∅).selected.count
      1 = 2 ∧
    (∃ r, (processSingleCampaign envDup 0
        { count := 2, primaryListId := 10, secondaryListId := some 20 } ∅).result =
      Except.ok r ∧ r.contactCount = 2) := by
  exact ⟨fun fetch cfg used => rfl, rfl, rfl, ⟨_, rfl, rfl⟩⟩

end Claims

end HubspotRoute
